import Mathlib

/-!
Verification of the trade-outcome simulation engine of the btc-futures-journal
repository, as implemented by `score` in `scripts/score_day.py` (the revision
whose output record matches the spec's `OutcomeRecord`: trigger detection with
conflict reporting, fill detection strictly after the trigger bar, the exit walk
with ambiguous same-candle resolution, excursion tracking, zero-risk guard and
expiry close).  Prices are modelled as rationals; timestamps as integers
(milliseconds).  Review timestamps that the script renders as formatted strings
are modelled by the underlying candle timestamps, since the formatting is an
injective presentation concern.
-/

namespace ScoreDay

/-- One OHLC bar, as built by `fetch_15m_binance`:
`{"t_open_ms": int(k[0]), "open": ..., "high": ..., "low": ..., "close": ...}`. -/
structure Candle where
  t_open_ms : Int
  op : ℚ
  high : ℚ
  low : ℚ
  close : ℚ
deriving DecidableEq

/-- One side of the paper trade: the parsed trigger level (`parse_trigger`
keeps the numeric threshold), `entry`, `stop` and the `tps` list. -/
structure SidePlan where
  level : ℚ
  entry : ℚ
  stop : ℚ
  tps : List ℚ
deriving DecidableEq

/-- The long/short conditional order pair (`paper_test_trade`). -/
structure TradePlan where
  long : SidePlan
  short : SidePlan
deriving DecidableEq

/-- The side being simulated after trigger resolution. -/
inductive Side where
  | long
  | short
deriving DecidableEq

/-- Value of the review's `triggered` field: `"none"`, `"long"`, `"short"` or
`"conflict"`. -/
inductive Triggered where
  | none
  | long
  | short
  | conflict
deriving DecidableEq

/-- Value of the review's `exit` field.  Constructor names follow the strings
written by `score`; `tp_hit` carries the touched level (the script appends it
to the string `"tp_hit_{tp}"`). -/
inductive ExitReason where
  | no_trigger
  | conflict
  | armed_not_filled
  | bad_risk_zero
  | ambiguous_stop_and_tp_same_candle
  | stopped
  | tp_hit (tp : ℚ)
  | expired_close
deriving DecidableEq

/-- The `paper_test_trade_review` record assembled by `score`.  `scored_at`
models the wall-clock value `datetime.now(tz=ET)` stored in `scored_at_et`. -/
structure Review where
  scored_at : Int
  triggered : Triggered
  trigger_time_ms : Option Int
  filled : Bool
  fill_time_ms : Option Int
  exit : ExitReason
  exit_price : Option ℚ
  exit_time_ms : Option Int
  max_favorable_R : ℚ
  max_adverse_R : ℚ
  R : ℚ
deriving DecidableEq

/-- `round(x, 3)` on the review's numeric fields: nearest multiple of 1/1000. -/
def round3 (q : ℚ) : ℚ := ((round (q * 1000) : ℤ) : ℚ) / 1000

/-- First element of a candle list satisfying `pred`, together with its index:
the `for i, c in enumerate(candles)` / `break` search pattern used by `score`. -/
def firstHit (pred : Candle → Bool) : List Candle → Option (Nat × Candle)
  | [] => Option.none
  | c :: cs =>
    if pred c then some (0, c)
    else (firstHit pred cs).map (fun ic => (ic.1 + 1, ic.2))

/-- `long_hit = c["close"] >= lt[1]`. -/
def longPred (p : TradePlan) (c : Candle) : Bool := decide (c.close ≥ p.long.level)

/-- `short_hit = c["close"] <= st[1]`. -/
def shortPred (p : TradePlan) (c : Candle) : Bool := decide (c.close ≤ p.short.level)

/-- `long_hit or short_hit`: the combined predicate of the trigger scan. -/
def trigPred (p : TradePlan) (c : Candle) : Bool := longPred p c || shortPred p c

/-- The trigger resolution of `score` (lines 108-120): scan for the first bar
whose close satisfies either side's condition; at that bar report `conflict`
when both sides are satisfied, otherwise the satisfied side. -/
def detectTrigger (p : TradePlan) (candles : List Candle) : Triggered :=
  match firstHit (trigPred p) candles with
  | Option.none => Triggered.none
  | some (_, c) =>
    if longPred p c && shortPred p c then Triggered.conflict
    else if longPred p c then Triggered.long
    else Triggered.short

/-- Trigger resolution as worded by the specification: compute each side's
first satisfying index separately; the strictly earlier index wins, an equal
index is a `conflict`, and two absent triggers give `none`. -/
def specTrigger (p : TradePlan) (candles : List Candle) : Triggered :=
  match firstHit (longPred p) candles, firstHit (shortPred p) candles with
  | Option.none, Option.none => Triggered.none
  | some _, Option.none => Triggered.long
  | Option.none, some _ => Triggered.short
  | some (iL, _), some (iS, _) =>
    if iL < iS then Triggered.long
    else if iS < iL then Triggered.short
    else Triggered.conflict

/-- Stop touch test of the exit loop: `lo <= long_stop` for a long,
`hi >= short_stop` for a short. -/
def stopTouch (side : Side) (stop : ℚ) (c : Candle) : Bool :=
  match side with
  | Side.long => decide (c.low ≤ stop)
  | Side.short => decide (c.high ≥ stop)

/-- One take-profit level touched by a bar: `hi >= tp` for a long,
`lo <= tp` for a short. -/
def tpTouch (side : Side) (tp : ℚ) (c : Candle) : Bool :=
  match side with
  | Side.long => decide (c.high ≥ tp)
  | Side.short => decide (c.low ≤ tp)

/-- The order the exit loop examines take-profits in: `sorted(long_tps)`
ascending for a long, `sorted(short_tps, reverse=True)` descending for a
short — nearest level to the entry first in both cases. -/
def sortedTps (side : Side) (tps : List ℚ) : List ℚ :=
  match side with
  | Side.long => List.insertionSort (· ≤ ·) tps
  | Side.short => List.insertionSort (fun a b : ℚ => b ≤ a) tps

/-- The first take-profit evaluated for a bar (`for tp in sorted(...): if
touched: tp_hit = tp; break`): only the first touched level in distance order
counts. -/
def tpEval (side : Side) (tps : List ℚ) (c : Candle) : Option ℚ :=
  (sortedTps side tps).find? (fun tp => tpTouch side tp c)

/-- The exit decision of one bar of the loop body: stop and first-TP touch
both present resolve pessimistically to a stop-out labelled ambiguous;
otherwise a stop-out, a take-profit exit, or no exit. -/
def stepExit (side : Side) (stop : ℚ) (tps : List ℚ) (c : Candle) :
    Option (ExitReason × ℚ) :=
  let sh := stopTouch side stop c
  match tpEval side tps c with
  | some tp =>
    if sh then some (ExitReason.ambiguous_stop_and_tp_same_candle, stop)
    else some (ExitReason.tp_hit tp, tp)
  | Option.none =>
    if sh then some (ExitReason.stopped, stop) else Option.none

/-- Favourable excursion of one bar measured in R: `(hi - entry) / risk` for a
long, `(entry - lo) / risk` for a short. -/
def favExcursion (side : Side) (entry risk : ℚ) (c : Candle) : ℚ :=
  match side with
  | Side.long => (c.high - entry) / risk
  | Side.short => (entry - c.low) / risk

/-- Adverse excursion of one bar measured in R: `(entry - lo) / risk` for a
long, `(hi - entry) / risk` for a short. -/
def advExcursion (side : Side) (entry risk : ℚ) (c : Candle) : ℚ :=
  match side with
  | Side.long => (entry - c.low) / risk
  | Side.short => (c.high - entry) / risk

/-- The exit walk (`for c in candles[fill_idx:]`): per bar, update both
excursion maxima, then apply `stepExit`; stop walking at the first exit,
carrying its reason, price and the bar's open time.  Returns the final
`(max_favorable_R, max_adverse_R)` pair and the exit, `none` when the window
is exhausted with the position still open. -/
def simulate (side : Side) (entry stop risk : ℚ) (tps : List ℚ) (mf ma : ℚ) :
    List Candle → (ℚ × ℚ) × Option (ExitReason × ℚ × Int)
  | [] => ((mf, ma), Option.none)
  | c :: rest =>
    let mf2 := max mf (favExcursion side entry risk c)
    let ma2 := max ma (advExcursion side entry risk c)
    match stepExit side stop tps c with
    | some rp => ((mf2, ma2), some (rp.1, rp.2, c.t_open_ms))
    | Option.none => simulate side entry stop risk tps mf2 ma2 rest

/-- The successive `(max_favorable_R, max_adverse_R)` pairs held by the exit
walk after each processed bar (the walk stops processing at the first bar
that exits). -/
def simulateTrace (side : Side) (entry stop risk : ℚ) (tps : List ℚ) (mf ma : ℚ) :
    List Candle → List (ℚ × ℚ)
  | [] => []
  | c :: rest =>
    let mf2 := max mf (favExcursion side entry risk c)
    let ma2 := max ma (advExcursion side entry risk c)
    match stepExit side stop tps c with
    | some _ => [(mf2, ma2)]
    | Option.none => (mf2, ma2) :: simulateTrace side entry stop risk tps mf2 ma2 rest

/-- The review dict as first assembled (lines 123-137): `"scored"` status,
`triggered` still to be overwritten, `no_trigger` exit, zeroed metrics, and
the wall-clock `scored_at`. -/
def baseReview (now : Int) : Review :=
  { scored_at := now
    triggered := Triggered.none
    trigger_time_ms := Option.none
    filled := false
    fill_time_ms := Option.none
    exit := ExitReason.no_trigger
    exit_price := Option.none
    exit_time_ms := Option.none
    max_favorable_R := 0
    max_adverse_R := 0
    R := 0 }

/-- The plan of the triggered side. -/
def sidePlan (p : TradePlan) : Side → SidePlan
  | Side.long => p.long
  | Side.short => p.short

/-- `risk_long = abs(long_entry - long_stop)`. -/
def riskLong (p : TradePlan) : ℚ := |p.long.entry - p.long.stop|

/-- `risk_short = abs(short_stop - short_entry)`. -/
def riskShort (p : TradePlan) : ℚ := |p.short.stop - p.short.entry|

/-- Risk of the simulated side. -/
def sideRisk (p : TradePlan) : Side → ℚ
  | Side.long => riskLong p
  | Side.short => riskShort p

/-- The side decision at the first triggering bar: `none` stands for the
conflict branch (`long_hit and short_hit`), otherwise
`"long" if long_hit else "short"`. -/
def triggeredSide (p : TradePlan) (c : Candle) : Option Side :=
  if longPred p c && shortPred p c then Option.none
  else if longPred p c then some Side.long
  else some Side.short

/-- The review's `triggered` value for a simulated side. -/
def Side.toTriggered : Side → Triggered
  | Side.long => Triggered.long
  | Side.short => Triggered.short

/-- Entry-fill test of one bar: `c["high"] >= long_entry` for a long,
`c["low"] <= short_entry` for a short. -/
def fillPred (side : Side) (entry : ℚ) (c : Candle) : Bool :=
  match side with
  | Side.long => decide (c.high ≥ entry)
  | Side.short => decide (c.low ≤ entry)

/-- `R = (exit_price - entry) / risk` for a long,
`R = (entry - exit_price) / risk` for a short. -/
def realizedR (side : Side) (entry risk px : ℚ) : ℚ :=
  match side with
  | Side.long => (px - entry) / risk
  | Side.short => (entry - px) / risk

/-- 15 minutes in milliseconds: the candle open-to-close offset used for the
trigger close time and the expiry close time. -/
def barMs : Int := 900000

/-- The filled part of `score` (lines 172-277): set `filled` and the fill
time, guard both sides' risks against zero, run the exit walk from the fill
bar, fall back to the expiry close at the last candle (`candles[-1]`) when
the walk exhausts the window, and fill in the rounded metrics and realized R.
`lastC` is the last candle of the series. -/
def scoreFilled (now : Int) (p : TradePlan) (cs : List Candle) (lastC : Candle)
    (side : Side) (i k : Nat) (ctrig cfill : Candle) : Review :=
  let sp := sidePlan p side
  let review2 : Review :=
    { baseReview now with
      triggered := Side.toTriggered side
      trigger_time_ms := some (ctrig.t_open_ms + barMs)
      filled := true
      fill_time_ms := some cfill.t_open_ms }
  if riskLong p = 0 ∨ riskShort p = 0 then
    { review2 with exit := ExitReason.bad_risk_zero }
  else
    let risk := sideRisk p side
    let res := simulate side sp.entry sp.stop risk sp.tps 0 0 (cs.drop (i + 1 + k))
    match res.2 with
    | some rpt =>
      { review2 with
        exit := rpt.1
        exit_price := some rpt.2.1
        exit_time_ms := some rpt.2.2
        max_favorable_R := round3 res.1.1
        max_adverse_R := round3 res.1.2
        R := round3 (realizedR side sp.entry risk rpt.2.1) }
    | Option.none =>
      { review2 with
        exit := ExitReason.expired_close
        exit_price := some lastC.close
        exit_time_ms := some (lastC.t_open_ms + barMs)
        max_favorable_R := round3 res.1.1
        max_adverse_R := round3 res.1.2
        R := round3 (realizedR side sp.entry risk lastC.close) }

/-- `score` on a nonempty candle series: trigger scan, conflict / no-trigger
early exits, fill scan strictly after the trigger bar, then `scoreFilled`. -/
def scoreNonempty (now : Int) (p : TradePlan) (c0 : Candle) (rest : List Candle) : Review :=
  match firstHit (trigPred p) (c0 :: rest) with
  | Option.none => baseReview now
  | some ic =>
    match triggeredSide p ic.2 with
    | Option.none =>
      { baseReview now with triggered := Triggered.conflict, exit := ExitReason.conflict }
    | some side =>
      match firstHit (fillPred side (sidePlan p side).entry) ((c0 :: rest).drop (ic.1 + 1)) with
      | Option.none =>
        { baseReview now with
          triggered := Side.toTriggered side
          trigger_time_ms := some (ic.2.t_open_ms + barMs)
          exit := ExitReason.armed_not_filled }
      | some kc =>
        scoreFilled now p (c0 :: rest) ((c0 :: rest).getLast (List.cons_ne_nil c0 rest))
          side ic.1 kc.1 ic.2 kc.2

/-- The simulation pipeline of `score(date_et)` after I/O and parsing: an
empty candle series is the `no_candles` early return (`Option.none`),
otherwise the assembled review record. -/
def score (now : Int) (p : TradePlan) (candles : List Candle) : Option Review :=
  match candles with
  | [] => Option.none
  | c0 :: rest => some (scoreNonempty now p c0 rest)

/-- The side not chosen by the trigger resolution. -/
def otherSide : Side → Side
  | Side.long => Side.short
  | Side.short => Side.long

/-- The review record without its `scored_at_et` wall-clock stamp. -/
structure ReviewCore where
  triggered : Triggered
  trigger_time_ms : Option Int
  filled : Bool
  fill_time_ms : Option Int
  exit : ExitReason
  exit_price : Option ℚ
  exit_time_ms : Option Int
  max_favorable_R : ℚ
  max_adverse_R : ℚ
  R : ℚ
deriving DecidableEq

/-- Forget the wall-clock stamp of a review. -/
def Review.core (r : Review) : ReviewCore :=
  { triggered := r.triggered
    trigger_time_ms := r.trigger_time_ms
    filled := r.filled
    fill_time_ms := r.fill_time_ms
    exit := r.exit
    exit_price := r.exit_price
    exit_time_ms := r.exit_time_ms
    max_favorable_R := r.max_favorable_R
    max_adverse_R := r.max_adverse_R
    R := r.R }

/-- Concrete plan for the wall-clock counterexample: neither side can
trigger on the candle below. -/
def pC6 : TradePlan :=
  { long := { level := 10, entry := 11, stop := 9, tps := [] }
    short := { level := 1, entry := 0, stop := 2, tps := [] } }

/-- Concrete candle for the wall-clock counterexample. -/
def bC6 : Candle := { t_open_ms := 0, op := 5, high := 6, low := 4, close := 5 }

/-- Concrete plan for the single-bar conflict counterexample: long triggers
at close ≥ 98, short at close ≤ 102. -/
def pC7 : TradePlan :=
  { long := { level := 98, entry := 99, stop := 97, tps := [] }
    short := { level := 102, entry := 103, stop := 105, tps := [] } }

/-- Concrete candle for the single-bar conflict counterexample. -/
def bC7 : Candle := { t_open_ms := 0, op := 100, high := 101, low := 99, close := 100 }

/-- Candle for the C1 witness: range 90-111 touches both the stop 95 and the
take-profit 110 of a long with entry 100. -/
def bC1 : Candle := { t_open_ms := 0, op := 100, high := 111, low := 90, close := 100 }

/-- Plan for the C3 witness: long triggers at close ≥ 100, entry 101, stop 95,
TP 110; the short side never triggers and has risk 4. -/
def pC3 : TradePlan :=
  { long := { level := 100, entry := 101, stop := 95, tps := [110] }
    short := { level := 90, entry := 89, stop := 93, tps := [80] } }

/-- Trigger bar of the C3 witness. -/
def bC3a : Candle := { t_open_ms := 0, op := 99, high := 100, low := 99, close := 100 }

/-- Fill bar of the C3 witness: fills at 101 but touches neither 95 nor 110. -/
def bC3b : Candle := { t_open_ms := 900000, op := 100, high := 102, low := 99, close := 101 }

/-- Plan for the C4 witness: the long entry 99 is already touched by the
trigger bar itself. -/
def pC4 : TradePlan :=
  { long := { level := 100, entry := 99, stop := 95, tps := [] }
    short := { level := 80, entry := 79, stop := 83, tps := [] } }

/-- Trigger bar of the C4 witness: its high 100 touches the entry 99. -/
def bC4a : Candle := { t_open_ms := 0, op := 99, high := 100, low := 98, close := 100 }

/-- Later bar of the C4 witness: never reaches the entry 99. -/
def bC4b : Candle := { t_open_ms := 900000, op := 98, high := 98, low := 97, close := 98 }

/-- Plan for the C5 witness: the long plan has `entry == stop` (risk 0) and
triggers and fills. -/
def pC5 : TradePlan :=
  { long := { level := 100, entry := 100, stop := 100, tps := [] }
    short := { level := 80, entry := 79, stop := 83, tps := [] } }

/-- Trigger bar of the C5 witness. -/
def bC5a : Candle := { t_open_ms := 0, op := 99, high := 100, low := 98, close := 100 }

/-- Fill bar of the C5 witness. -/
def bC5b : Candle := { t_open_ms := 900000, op := 100, high := 101, low := 99, close := 100 }

/-- Plan for the C9 witness: the long side is valid (risk 6) and triggers and
fills; the short side — never simulated — has `entry == stop` (risk 0). -/
def pC9 : TradePlan :=
  { long := { level := 100, entry := 101, stop := 95, tps := [110] }
    short := { level := 80, entry := 90, stop := 90, tps := [] } }

/-- Trigger bar of the C9 witness. -/
def bC9a : Candle := { t_open_ms := 0, op := 99, high := 100, low := 99, close := 100 }

/-- Fill bar of the C9 witness. -/
def bC9b : Candle := { t_open_ms := 900000, op := 100, high := 102, low := 99, close := 101 }

/-- Plan for the C10 witness: no trigger on the candle below. -/
def pC10 : TradePlan :=
  { long := { level := 200, entry := 201, stop := 199, tps := [] }
    short := { level := 50, entry := 49, stop := 51, tps := [] } }

/-- Candle for the C10 witness. -/
def bC10 : Candle := { t_open_ms := 0, op := 100, high := 101, low := 99, close := 100 }

/-- Plan for the C7 amended witness: the usual breakout shape with the long
level 102 strictly above the short level 98. -/
def pC7W : TradePlan :=
  { long := { level := 102, entry := 103, stop := 99, tps := [] }
    short := { level := 98, entry := 97, stop := 101, tps := [] } }

lemma firstHit_cons (pred : Candle → Bool) (c : Candle) (cs : List Candle) :
    firstHit pred (c :: cs) =
      if pred c then some (0, c)
      else (firstHit pred cs).map (fun ic => (ic.1 + 1, ic.2)) := rfl

lemma firstHit_eq_none_iff (pred : Candle → Bool) (l : List Candle) :
    firstHit pred l = Option.none ↔ ∀ c ∈ l, pred c = false := by
  induction l with
  | nil => simp [firstHit]
  | cons c cs ih =>
    by_cases h : pred c = true
    · simp [firstHit, h]
    · simp only [Bool.not_eq_true] at h
      simp [firstHit, h, ih]

lemma firstHit_some_spec (pred : Candle → Bool) (l : List Candle) (k : Nat) (c : Candle)
    (h : firstHit pred l = some (k, c)) :
    l.get? k = some c ∧ pred c = true ∧
      ∀ j cj, j < k → l.get? j = some cj → pred cj = false := by
  induction l generalizing k with
  | nil => simp [firstHit] at h
  | cons b bs ih =>
    by_cases hb : pred b = true
    · simp only [firstHit_cons, if_pos hb, Option.some.injEq, Prod.mk.injEq] at h
      obtain ⟨hk, hc⟩ := h
      subst hk; subst hc
      refine ⟨rfl, hb, ?_⟩
      intro j cj hj
      omega
    · simp only [Bool.not_eq_true] at hb
      rw [firstHit_cons, if_neg (by simp [hb])] at h
      rcases hfh : firstHit pred bs with _ | ⟨k', c'⟩
      · rw [hfh] at h; simp at h
      rw [hfh] at h
      simp only [Option.map_some', Option.some.injEq, Prod.mk.injEq] at h
      obtain ⟨hk, hc⟩ := h
      subst hc
      obtain ⟨hget, hpred, hbefore⟩ := ih k' hfh
      refine ⟨?_, hpred, ?_⟩
      · rw [← hk]; simpa using hget
      · intro j cj hj hget'
        match j with
        | 0 =>
          rw [List.get?_cons_zero] at hget'
          cases hget'
          exact hb
        | j' + 1 =>
          rw [List.get?_cons_succ] at hget'
          exact hbefore j' cj (by omega) hget'

lemma detectTrigger_cons_of_not (p : TradePlan) (c : Candle) (cs : List Candle)
    (h : trigPred p c = false) :
    detectTrigger p (c :: cs) = detectTrigger p cs := by
  unfold detectTrigger
  rw [firstHit_cons, if_neg (by simp [h])]
  rcases hfh : firstHit (trigPred p) cs with _ | ⟨i, c'⟩ <;> rfl

lemma specTrigger_cons_of_not (p : TradePlan) (c : Candle) (cs : List Candle)
    (hl : longPred p c = false) (hs : shortPred p c = false) :
    specTrigger p (c :: cs) = specTrigger p cs := by
  unfold specTrigger
  rw [firstHit_cons (longPred p), if_neg (by simp [hl]),
    firstHit_cons (shortPred p), if_neg (by simp [hs])]
  rcases hfl : firstHit (longPred p) cs with _ | ⟨iL, cL⟩ <;>
    rcases hfs : firstHit (shortPred p) cs with _ | ⟨iS, cS⟩ <;>
    simp [Nat.add_lt_add_iff_right]

/-- C2: the trigger detector of `score` agrees everywhere with the
specification's description: the side whose first satisfying candle close has
the strictly earlier index is reported; an equal first index for both sides is
reported as `conflict`; and `none` is reported when no close ever satisfies
either condition (`specTrigger` states exactly that wording). -/
theorem trigger_detector_earliest_close_wins (p : TradePlan) (candles : List Candle) :
    detectTrigger p candles = specTrigger p candles := by
  induction candles with
  | nil => rfl
  | cons c cs ih =>
    by_cases hl : longPred p c = true
    · by_cases hs : shortPred p c = true
      · unfold detectTrigger specTrigger
        rw [firstHit_cons, if_pos (by simp [trigPred, hl]),
          firstHit_cons (longPred p), if_pos hl, firstHit_cons (shortPred p), if_pos hs]
        simp [hl, hs]
      · simp only [Bool.not_eq_true] at hs
        unfold detectTrigger specTrigger
        rw [firstHit_cons, if_pos (by simp [trigPred, hl]),
          firstHit_cons (longPred p), if_pos hl, firstHit_cons (shortPred p),
          if_neg (by simp [hs])]
        rcases hfs : firstHit (shortPred p) cs with _ | ⟨iS, cS⟩ <;> simp [hl, hs]
    · simp only [Bool.not_eq_true] at hl
      by_cases hs : shortPred p c = true
      · unfold detectTrigger specTrigger
        rw [firstHit_cons, if_pos (by simp [trigPred, hs]),
          firstHit_cons (longPred p), if_neg (by simp [hl]),
          firstHit_cons (shortPred p), if_pos hs]
        rcases hfl : firstHit (longPred p) cs with _ | ⟨iL, cL⟩ <;> simp [hl, hs]
      · simp only [Bool.not_eq_true] at hs
        rw [detectTrigger_cons_of_not p c cs (by simp [trigPred, hl, hs]),
          specTrigger_cons_of_not p c cs hl hs]
        exact ih

lemma detectTrigger_conflict_iff (p : TradePlan) (candles : List Candle) :
    detectTrigger p candles = Triggered.conflict ↔
      ∃ i c, firstHit (trigPred p) candles = some (i, c) ∧
        longPred p c = true ∧ shortPred p c = true := by
  unfold detectTrigger
  rcases hfh : firstHit (trigPred p) candles with _ | ⟨i, c⟩
  · simp
  · constructor
    · intro hd
      by_cases hl : longPred p c = true
      · by_cases hs : shortPred p c = true
        · exact ⟨i, c, rfl, hl, hs⟩
        · simp [hl, hs] at hd
      · simp [hl] at hd
    · rintro ⟨i1, c1, heq, hl, hs⟩
      obtain ⟨rfl, rfl⟩ : i = i1 ∧ c = c1 := by simpa using heq
      simp [hl, hs]

lemma simulate_cons_exit (side : Side) (entry stop risk : ℚ) (tps : List ℚ)
    (mf ma : ℚ) (c : Candle) (rest : List Candle) (rp : ExitReason × ℚ)
    (h : stepExit side stop tps c = some rp) :
    simulate side entry stop risk tps mf ma (c :: rest) =
      ((max mf (favExcursion side entry risk c),
        max ma (advExcursion side entry risk c)),
        some (rp.1, rp.2, c.t_open_ms)) := by
  simp only [simulate]
  rw [h]

lemma simulate_cons_none (side : Side) (entry stop risk : ℚ) (tps : List ℚ)
    (mf ma : ℚ) (c : Candle) (rest : List Candle)
    (h : stepExit side stop tps c = Option.none) :
    simulate side entry stop risk tps mf ma (c :: rest) =
      simulate side entry stop risk tps (max mf (favExcursion side entry risk c))
        (max ma (advExcursion side entry risk c)) rest := by
  simp only [simulate]
  rw [h]

lemma simulateTrace_cons_exit (side : Side) (entry stop risk : ℚ) (tps : List ℚ)
    (mf ma : ℚ) (c : Candle) (rest : List Candle) (rp : ExitReason × ℚ)
    (h : stepExit side stop tps c = some rp) :
    simulateTrace side entry stop risk tps mf ma (c :: rest) =
      [(max mf (favExcursion side entry risk c),
        max ma (advExcursion side entry risk c))] := by
  simp only [simulateTrace]
  rw [h]

lemma simulateTrace_cons_none (side : Side) (entry stop risk : ℚ) (tps : List ℚ)
    (mf ma : ℚ) (c : Candle) (rest : List Candle)
    (h : stepExit side stop tps c = Option.none) :
    simulateTrace side entry stop risk tps mf ma (c :: rest) =
      (max mf (favExcursion side entry risk c),
        max ma (advExcursion side entry risk c)) ::
        simulateTrace side entry stop risk tps
          (max mf (favExcursion side entry risk c))
          (max ma (advExcursion side entry risk c)) rest := by
  simp only [simulateTrace]
  rw [h]

lemma stepExit_eq_none_of_no_touch (side : Side) (stop : ℚ) (tps : List ℚ) (c : Candle)
    (hstop : stopTouch side stop c = false)
    (htp : ∀ tp ∈ tps, tpTouch side tp c = false) :
    stepExit side stop tps c = Option.none := by
  have hfind : tpEval side tps c = Option.none := by
    unfold tpEval
    rw [List.find?_eq_none]
    intro tp hmem
    have hmem' : tp ∈ tps := by
      cases side <;> simpa [sortedTps] using hmem
    simp [htp tp hmem']
  unfold stepExit
  rw [hfind]
  simp [hstop]

lemma simulate_no_exit (side : Side) (entry stop risk : ℚ) (tps : List ℚ)
    (bars : List Candle)
    (h : ∀ c ∈ bars, stepExit side stop tps c = Option.none) :
    ∀ mf ma, (simulate side entry stop risk tps mf ma bars).2 = Option.none := by
  induction bars with
  | nil => intro mf ma; rfl
  | cons c rest ih =>
    intro mf ma
    have hc := h c (by simp)
    have hrest : ∀ c' ∈ rest, stepExit side stop tps c' = Option.none := by
      intro c' hc'; exact h c' (by simp [hc'])
    simp only [simulate]
    rw [hc]
    exact ih hrest _ _

lemma simulate_ge (side : Side) (entry stop risk : ℚ) (tps : List ℚ)
    (bars : List Candle) :
    ∀ mf ma, mf ≤ (simulate side entry stop risk tps mf ma bars).1.1 ∧
      ma ≤ (simulate side entry stop risk tps mf ma bars).1.2 := by
  induction bars with
  | nil => intro mf ma; exact ⟨le_refl _, le_refl _⟩
  | cons c rest ih =>
    intro mf ma
    simp only [simulate]
    rcases hs : stepExit side stop tps c with _ | rp
    · refine ⟨le_trans (le_max_left _ _) (ih _ _).1,
        le_trans (le_max_left _ _) (ih _ _).2⟩
    · exact ⟨le_max_left _ _, le_max_left _ _⟩

/-- C1: pessimism invariant of the exit walk.  If every bar before `c` decides
no exit and bar `c` touches both the stop and the first take-profit evaluated
for it (for a long: `low <= stop` and `high >=` that TP; for a short:
`high >= stop` and `low <=` that TP), the walk terminates at bar `c` with the
ambiguous same-candle reason and the stop as exit price — never the TP. -/
theorem ambiguous_same_bar_exits_at_stop (side : Side) (entry stop risk mf ma : ℚ)
    (tps : List ℚ) (pre : List Candle) (c : Candle) (post : List Candle)
    (hpre : ∀ b ∈ pre, stepExit side stop tps b = Option.none)
    (hstop : stopTouch side stop c = true)
    (htp : (tpEval side tps c).isSome = true) :
    (simulate side entry stop risk tps mf ma (pre ++ c :: post)).2 =
      some (ExitReason.ambiguous_stop_and_tp_same_candle, stop, c.t_open_ms) := by
  revert hpre
  induction pre generalizing mf ma with
  | nil =>
    intro _
    rcases htpv : tpEval side tps c with _ | tp
    · rw [htpv] at htp; simp at htp
    · have hstep : stepExit side stop tps c =
          some (ExitReason.ambiguous_stop_and_tp_same_candle, stop) := by
        unfold stepExit
        rw [htpv]
        simp [hstop]
      rw [List.nil_append,
        simulate_cons_exit side entry stop risk tps mf ma c post _ hstep]
  | cons b pre' ih =>
    intro hpre
    have hb := hpre b (by simp)
    have hpre' : ∀ b' ∈ pre', stepExit side stop tps b' = Option.none := by
      intro b' hb'; exact hpre b' (by simp [hb'])
    rw [List.cons_append, simulate_cons_none side entry stop risk tps mf ma b _ hb]
    exact ih _ _ hpre'

/-- C8: as the exit walk advances bar by bar, the per-bar sequence of
`max_favorable_R` values and the per-bar sequence of `max_adverse_R` values
are each non-decreasing, and the walk's final pair is the last entry of that
sequence. -/
theorem excursion_maxima_monotone (side : Side) (entry stop risk : ℚ) (tps : List ℚ)
    (bars : List Candle) :
    ∀ mf ma,
      List.Chain' (fun x y : ℚ × ℚ => x.1 ≤ y.1 ∧ x.2 ≤ y.2)
        ((mf, ma) :: simulateTrace side entry stop risk tps mf ma bars) ∧
      (simulate side entry stop risk tps mf ma bars).1 =
        ((mf, ma) :: simulateTrace side entry stop risk tps mf ma bars).getLast
          (List.cons_ne_nil _ _) := by
  induction bars with
  | nil =>
    intro mf ma
    exact ⟨List.chain'_singleton _, rfl⟩
  | cons c rest ih =>
    intro mf ma
    rcases hs : stepExit side stop tps c with _ | rp
    · rw [simulate_cons_none side entry stop risk tps mf ma c rest hs,
        simulateTrace_cons_none side entry stop risk tps mf ma c rest hs]
      refine ⟨?_, ?_⟩
      · rw [List.chain'_cons]
        exact ⟨⟨le_max_left _ _, le_max_left _ _⟩, (ih _ _).1⟩
      · rw [(ih _ _).2]
        exact (List.getLast_cons _).symm
    · rw [simulate_cons_exit side entry stop risk tps mf ma c rest rp hs,
        simulateTrace_cons_exit side entry stop risk tps mf ma c rest rp hs]
      refine ⟨?_, rfl⟩
      rw [List.chain'_cons]
      exact ⟨⟨le_max_left _ _, le_max_left _ _⟩, List.chain'_singleton _⟩

lemma scoreNonempty_no_trigger (now : Int) (p : TradePlan) (c0 : Candle)
    (rest : List Candle)
    (h : firstHit (trigPred p) (c0 :: rest) = Option.none) :
    scoreNonempty now p c0 rest = baseReview now := by
  unfold scoreNonempty
  rw [h]

lemma scoreNonempty_conflict (now : Int) (p : TradePlan) (c0 : Candle)
    (rest : List Candle) (i : Nat) (ctrig : Candle)
    (h1 : firstHit (trigPred p) (c0 :: rest) = some (i, ctrig))
    (h2 : triggeredSide p ctrig = Option.none) :
    scoreNonempty now p c0 rest =
      { baseReview now with triggered := Triggered.conflict, exit := ExitReason.conflict } := by
  unfold scoreNonempty
  rw [h1]
  simp only
  rw [h2]

lemma scoreNonempty_armed (now : Int) (p : TradePlan) (c0 : Candle)
    (rest : List Candle) (i : Nat) (ctrig : Candle) (side : Side)
    (h1 : firstHit (trigPred p) (c0 :: rest) = some (i, ctrig))
    (h2 : triggeredSide p ctrig = some side)
    (h3 : firstHit (fillPred side (sidePlan p side).entry) ((c0 :: rest).drop (i + 1)) =
      Option.none) :
    scoreNonempty now p c0 rest =
      { baseReview now with
        triggered := Side.toTriggered side
        trigger_time_ms := some (ctrig.t_open_ms + barMs)
        exit := ExitReason.armed_not_filled } := by
  unfold scoreNonempty
  rw [h1]
  simp only
  rw [h2]
  simp only
  rw [h3]

lemma scoreNonempty_filled (now : Int) (p : TradePlan) (c0 : Candle)
    (rest : List Candle) (i k : Nat) (ctrig cfill : Candle) (side : Side)
    (h1 : firstHit (trigPred p) (c0 :: rest) = some (i, ctrig))
    (h2 : triggeredSide p ctrig = some side)
    (h3 : firstHit (fillPred side (sidePlan p side).entry) ((c0 :: rest).drop (i + 1)) =
      some (k, cfill)) :
    scoreNonempty now p c0 rest =
      scoreFilled now p (c0 :: rest) ((c0 :: rest).getLast (List.cons_ne_nil c0 rest))
        side i k ctrig cfill := by
  unfold scoreNonempty
  rw [h1]
  simp only
  rw [h2]
  simp only
  rw [h3]

lemma round3_nonneg (q : ℚ) (h : 0 ≤ q) : 0 ≤ round3 q := by
  unfold round3
  have h1 : (0 : ℤ) ≤ round (q * 1000) := by
    rw [round_eq]
    have h2 : ((1 : ℚ) / 2) ≤ q * 1000 + 1 / 2 := by nlinarith
    have h3 := Int.floor_mono h2
    have h4 : ⌊(1 : ℚ) / 2⌋ = 0 := by norm_num
    rw [h4] at h3
    exact h3
  exact div_nonneg (by exact_mod_cast h1) (by norm_num)

lemma scoreFilled_bad_risk (now : Int) (p : TradePlan) (cs : List Candle)
    (lastC : Candle) (side : Side) (i k : Nat) (ctrig cfill : Candle)
    (h : riskLong p = 0 ∨ riskShort p = 0) :
    scoreFilled now p cs lastC side i k ctrig cfill =
      { baseReview now with
        triggered := Side.toTriggered side
        trigger_time_ms := some (ctrig.t_open_ms + barMs)
        filled := true
        fill_time_ms := some cfill.t_open_ms
        exit := ExitReason.bad_risk_zero } := by
  unfold scoreFilled
  rw [if_pos h]

lemma scoreFilled_exit (now : Int) (p : TradePlan) (cs : List Candle)
    (lastC : Candle) (side : Side) (i k : Nat) (ctrig cfill : Candle)
    (rpt : ExitReason × ℚ × Int)
    (h : ¬(riskLong p = 0 ∨ riskShort p = 0))
    (hsim : (simulate side (sidePlan p side).entry (sidePlan p side).stop
      (sideRisk p side) (sidePlan p side).tps 0 0 (cs.drop (i + 1 + k))).2 = some rpt) :
    scoreFilled now p cs lastC side i k ctrig cfill =
      { baseReview now with
        triggered := Side.toTriggered side
        trigger_time_ms := some (ctrig.t_open_ms + barMs)
        filled := true
        fill_time_ms := some cfill.t_open_ms
        exit := rpt.1
        exit_price := some rpt.2.1
        exit_time_ms := some rpt.2.2
        max_favorable_R := round3 (simulate side (sidePlan p side).entry
          (sidePlan p side).stop (sideRisk p side) (sidePlan p side).tps 0 0
          (cs.drop (i + 1 + k))).1.1
        max_adverse_R := round3 (simulate side (sidePlan p side).entry
          (sidePlan p side).stop (sideRisk p side) (sidePlan p side).tps 0 0
          (cs.drop (i + 1 + k))).1.2
        R := round3 (realizedR side (sidePlan p side).entry (sideRisk p side) rpt.2.1) } := by
  unfold scoreFilled
  rw [if_neg h]
  simp only
  rw [hsim]

lemma scoreFilled_expired (now : Int) (p : TradePlan) (cs : List Candle)
    (lastC : Candle) (side : Side) (i k : Nat) (ctrig cfill : Candle)
    (h : ¬(riskLong p = 0 ∨ riskShort p = 0))
    (hsim : (simulate side (sidePlan p side).entry (sidePlan p side).stop
      (sideRisk p side) (sidePlan p side).tps 0 0 (cs.drop (i + 1 + k))).2 =
      Option.none) :
    scoreFilled now p cs lastC side i k ctrig cfill =
      { baseReview now with
        triggered := Side.toTriggered side
        trigger_time_ms := some (ctrig.t_open_ms + barMs)
        filled := true
        fill_time_ms := some cfill.t_open_ms
        exit := ExitReason.expired_close
        exit_price := some lastC.close
        exit_time_ms := some (lastC.t_open_ms + barMs)
        max_favorable_R := round3 (simulate side (sidePlan p side).entry
          (sidePlan p side).stop (sideRisk p side) (sidePlan p side).tps 0 0
          (cs.drop (i + 1 + k))).1.1
        max_adverse_R := round3 (simulate side (sidePlan p side).entry
          (sidePlan p side).stop (sideRisk p side) (sidePlan p side).tps 0 0
          (cs.drop (i + 1 + k))).1.2
        R := round3 (realizedR side (sidePlan p side).entry (sideRisk p side)
          lastC.close) } := by
  unfold scoreFilled
  rw [if_neg h]
  simp only
  rw [hsim]

lemma score_cons_eq (now : Int) (p : TradePlan) (c0 : Candle) (rest : List Candle)
    (r : Review) (h : score now p (c0 :: rest) = some r) :
    r = scoreNonempty now p c0 rest := (Option.some.inj h).symm

lemma scoreFilled_fields (now : Int) (p : TradePlan) (cs : List Candle)
    (lastC : Candle) (side : Side) (i k : Nat) (ctrig cfill : Candle) :
    (scoreFilled now p cs lastC side i k ctrig cfill).filled = true ∧
      (scoreFilled now p cs lastC side i k ctrig cfill).fill_time_ms =
        some cfill.t_open_ms := by
  by_cases h : riskLong p = 0 ∨ riskShort p = 0
  · rw [scoreFilled_bad_risk now p cs lastC side i k ctrig cfill h]
    exact ⟨rfl, rfl⟩
  · rcases hsim : (simulate side (sidePlan p side).entry (sidePlan p side).stop
        (sideRisk p side) (sidePlan p side).tps 0 0 (cs.drop (i + 1 + k))).2
        with _ | rpt
    · rw [scoreFilled_expired now p cs lastC side i k ctrig cfill h hsim]
      exact ⟨rfl, rfl⟩
    · rw [scoreFilled_exit now p cs lastC side i k ctrig cfill rpt h hsim]
      exact ⟨rfl, rfl⟩

/-- C3: for a filled simulation, if no bar from the fill bar to the end of the
window touches the stop or any take-profit of the triggered side, the exit is
the expiry close: reason `expired_close` and exit price equal to the last
bar's close. -/
theorem expired_at_window_close (now : Int) (p : TradePlan) (c0 : Candle)
    (rest : List Candle) (i k : Nat) (ctrig cfill : Candle) (side : Side) (r : Review)
    (h1 : firstHit (trigPred p) (c0 :: rest) = some (i, ctrig))
    (h2 : triggeredSide p ctrig = some side)
    (h3 : firstHit (fillPred side (sidePlan p side).entry)
      ((c0 :: rest).drop (i + 1)) = some (k, cfill))
    (h4 : riskLong p ≠ 0) (h5 : riskShort p ≠ 0)
    (h6 : ∀ c ∈ (c0 :: rest).drop (i + 1 + k),
      stopTouch side (sidePlan p side).stop c = false ∧
        ∀ tp ∈ (sidePlan p side).tps, tpTouch side tp c = false)
    (hr : score now p (c0 :: rest) = some r) :
    r.exit = ExitReason.expired_close ∧
      r.exit_price = some ((c0 :: rest).getLast (List.cons_ne_nil c0 rest)).close := by
  have hreq := score_cons_eq now p c0 rest r hr
  have hno : ∀ c ∈ (c0 :: rest).drop (i + 1 + k),
      stepExit side (sidePlan p side).stop (sidePlan p side).tps c = Option.none := by
    intro c hc
    exact stepExit_eq_none_of_no_touch side _ _ c (h6 c hc).1 (h6 c hc).2
  have hsim := simulate_no_exit side (sidePlan p side).entry (sidePlan p side).stop
    (sideRisk p side) (sidePlan p side).tps _ hno 0 0
  rw [hreq, scoreNonempty_filled now p c0 rest i k ctrig cfill side h1 h2 h3,
    scoreFilled_expired now p (c0 :: rest) _ side i k ctrig cfill
      (not_or.mpr ⟨h4, h5⟩) hsim]
  exact ⟨rfl, rfl⟩

/-- C4: the fill scan runs over the bars strictly after the trigger bar only.
If no such bar reaches the entry the outcome is armed-not-filled (even when
the trigger bar itself touches the entry); when one does, the fill is the
first such bar, and the bar's own touch condition (`high >= entry` long,
`low <= entry` short) holds there and fails on all earlier scanned bars. -/
theorem fill_strictly_after_trigger (now : Int) (p : TradePlan) (c0 : Candle)
    (rest : List Candle) (i : Nat) (ctrig : Candle) (side : Side) (r : Review)
    (h1 : firstHit (trigPred p) (c0 :: rest) = some (i, ctrig))
    (h2 : triggeredSide p ctrig = some side)
    (hr : score now p (c0 :: rest) = some r) :
    (firstHit (fillPred side (sidePlan p side).entry) ((c0 :: rest).drop (i + 1)) =
        Option.none →
      r.filled = false ∧ r.exit = ExitReason.armed_not_filled) ∧
    (∀ k cfill,
      firstHit (fillPred side (sidePlan p side).entry) ((c0 :: rest).drop (i + 1)) =
          some (k, cfill) →
      r.filled = true ∧ r.fill_time_ms = some cfill.t_open_ms ∧
        fillPred side (sidePlan p side).entry cfill = true ∧
        ∀ j cj, j < k → ((c0 :: rest).drop (i + 1)).get? j = some cj →
          fillPred side (sidePlan p side).entry cj = false) ∧
    ((∀ c ∈ (c0 :: rest).drop (i + 1), fillPred side (sidePlan p side).entry c = false) →
      r.filled = false ∧ r.exit = ExitReason.armed_not_filled) := by
  have hreq := score_cons_eq now p c0 rest r hr
  refine ⟨?_, ?_, ?_⟩
  · intro h3
    rw [hreq, scoreNonempty_armed now p c0 rest i ctrig side h1 h2 h3]
    exact ⟨rfl, rfl⟩
  · intro k cfill h3
    obtain ⟨hget, hpred, hbefore⟩ := firstHit_some_spec _ _ _ _ h3
    have hflds := scoreFilled_fields now p (c0 :: rest)
      ((c0 :: rest).getLast (List.cons_ne_nil c0 rest)) side i k ctrig cfill
    rw [hreq, scoreNonempty_filled now p c0 rest i k ctrig cfill side h1 h2 h3]
    exact ⟨hflds.1, hflds.2, hpred, hbefore⟩
  · intro hall
    have h3 : firstHit (fillPred side (sidePlan p side).entry)
        ((c0 :: rest).drop (i + 1)) = Option.none :=
      (firstHit_eq_none_iff _ _).mpr hall
    rw [hreq, scoreNonempty_armed now p c0 rest i ctrig side h1 h2 h3]
    exact ⟨rfl, rfl⟩

/-- C5: a zero risk (`entry == stop` on either side) in a triggered and filled
simulation yields the structured `bad_risk_zero` outcome: realized R is left
at its zeroed default and no exit price is ever computed — zero risk is never
coerced into a numeric result by the R division. -/
theorem zero_risk_structured_error (now : Int) (p : TradePlan) (c0 : Candle)
    (rest : List Candle) (i k : Nat) (ctrig cfill : Candle) (side : Side) (r : Review)
    (h1 : firstHit (trigPred p) (c0 :: rest) = some (i, ctrig))
    (h2 : triggeredSide p ctrig = some side)
    (h3 : firstHit (fillPred side (sidePlan p side).entry)
      ((c0 :: rest).drop (i + 1)) = some (k, cfill))
    (h4 : riskLong p = 0 ∨ riskShort p = 0)
    (hr : score now p (c0 :: rest) = some r) :
    r.exit = ExitReason.bad_risk_zero ∧ r.R = 0 ∧ r.exit_price = Option.none := by
  have hreq := score_cons_eq now p c0 rest r hr
  rw [hreq, scoreNonempty_filled now p c0 rest i k ctrig cfill side h1 h2 h3,
    scoreFilled_bad_risk now p (c0 :: rest) _ side i k ctrig cfill h4]
  exact ⟨rfl, rfl, rfl⟩

/-- C9: the zero-risk guard tests both sides' plans.  Even when the triggered
and filled side has nonzero risk, a zero risk on the other — never simulated —
side still aborts scoring with the `bad_risk_zero` outcome and realized R 0.0. -/
theorem zero_risk_on_other_side_blocks_scoring (now : Int) (p : TradePlan)
    (c0 : Candle) (rest : List Candle) (i k : Nat) (ctrig cfill : Candle)
    (side : Side) (r : Review)
    (h1 : firstHit (trigPred p) (c0 :: rest) = some (i, ctrig))
    (h2 : triggeredSide p ctrig = some side)
    (h3 : firstHit (fillPred side (sidePlan p side).entry)
      ((c0 :: rest).drop (i + 1)) = some (k, cfill))
    (h4 : sideRisk p (otherSide side) = 0)
    (h5 : sideRisk p side ≠ 0)
    (hr : score now p (c0 :: rest) = some r) :
    r.exit = ExitReason.bad_risk_zero ∧ r.R = 0 := by
  have hor : riskLong p = 0 ∨ riskShort p = 0 := by
    cases side
    · exact Or.inr h4
    · exact Or.inl h4
  have hreq := score_cons_eq now p c0 rest r hr
  rw [hreq, scoreNonempty_filled now p c0 rest i k ctrig cfill side h1 h2 h3,
    scoreFilled_bad_risk now p (c0 :: rest) _ side i k ctrig cfill hor]
  exact ⟨rfl, rfl⟩

/-- C10: in every produced review the excursion metrics are nonnegative: they
start at 0.0 and only grow by taking maxima, so even a purely adverse move
reports `max_favorable_R = 0.0`, never a negative value. -/
theorem excursion_metrics_nonnegative (now : Int) (p : TradePlan)
    (candles : List Candle) (r : Review)
    (hr : score now p candles = some r) :
    0 ≤ r.max_favorable_R ∧ 0 ≤ r.max_adverse_R := by
  cases candles with
  | nil => simp [score] at hr
  | cons c0 rest =>
    have hreq := score_cons_eq now p c0 rest r hr
    rcases h1 : firstHit (trigPred p) (c0 :: rest) with _ | ⟨i, ctrig⟩
    · rw [hreq, scoreNonempty_no_trigger now p c0 rest h1]
      exact ⟨le_refl _, le_refl _⟩
    · rcases h2 : triggeredSide p ctrig with _ | side
      · rw [hreq, scoreNonempty_conflict now p c0 rest i ctrig h1 h2]
        exact ⟨le_refl _, le_refl _⟩
      · rcases h3 : firstHit (fillPred side (sidePlan p side).entry)
            ((c0 :: rest).drop (i + 1)) with _ | ⟨k, cfill⟩
        · rw [hreq, scoreNonempty_armed now p c0 rest i ctrig side h1 h2 h3]
          exact ⟨le_refl _, le_refl _⟩
        · rw [hreq, scoreNonempty_filled now p c0 rest i k ctrig cfill side h1 h2 h3]
          by_cases h : riskLong p = 0 ∨ riskShort p = 0
          · rw [scoreFilled_bad_risk now p (c0 :: rest) _ side i k ctrig cfill h]
            exact ⟨le_refl _, le_refl _⟩
          · have hge := simulate_ge side (sidePlan p side).entry (sidePlan p side).stop
              (sideRisk p side) (sidePlan p side).tps ((c0 :: rest).drop (i + 1 + k)) 0 0
            rcases hsim : (simulate side (sidePlan p side).entry (sidePlan p side).stop
                (sideRisk p side) (sidePlan p side).tps 0 0
                ((c0 :: rest).drop (i + 1 + k))).2 with _ | rpt
            · rw [scoreFilled_expired now p (c0 :: rest) _ side i k ctrig cfill h hsim]
              exact ⟨round3_nonneg _ hge.1, round3_nonneg _ hge.2⟩
            · rw [scoreFilled_exit now p (c0 :: rest) _ side i k ctrig cfill rpt h hsim]
              exact ⟨round3_nonneg _ hge.1, round3_nonneg _ hge.2⟩

lemma scoreFilled_scored_at (now : Int) (p : TradePlan) (cs : List Candle)
    (lastC : Candle) (side : Side) (i k : Nat) (ctrig cfill : Candle) :
    scoreFilled now p cs lastC side i k ctrig cfill =
      { scoreFilled 0 p cs lastC side i k ctrig cfill with scored_at := now } := by
  by_cases h : riskLong p = 0 ∨ riskShort p = 0
  · rw [scoreFilled_bad_risk now p cs lastC side i k ctrig cfill h,
      scoreFilled_bad_risk 0 p cs lastC side i k ctrig cfill h]
    rfl
  · rcases hsim : (simulate side (sidePlan p side).entry (sidePlan p side).stop
        (sideRisk p side) (sidePlan p side).tps 0 0 (cs.drop (i + 1 + k))).2
        with _ | rpt
    · rw [scoreFilled_expired now p cs lastC side i k ctrig cfill h hsim,
        scoreFilled_expired 0 p cs lastC side i k ctrig cfill h hsim]
      rfl
    · rw [scoreFilled_exit now p cs lastC side i k ctrig cfill rpt h hsim,
        scoreFilled_exit 0 p cs lastC side i k ctrig cfill rpt h hsim]
      rfl

lemma scoreNonempty_scored_at (now : Int) (p : TradePlan) (c0 : Candle)
    (rest : List Candle) :
    scoreNonempty now p c0 rest =
      { scoreNonempty 0 p c0 rest with scored_at := now } := by
  rcases h1 : firstHit (trigPred p) (c0 :: rest) with _ | ⟨i, ctrig⟩
  · rw [scoreNonempty_no_trigger now p c0 rest h1, scoreNonempty_no_trigger 0 p c0 rest h1]
    rfl
  · rcases h2 : triggeredSide p ctrig with _ | side
    · rw [scoreNonempty_conflict now p c0 rest i ctrig h1 h2,
        scoreNonempty_conflict 0 p c0 rest i ctrig h1 h2]
      rfl
    · rcases h3 : firstHit (fillPred side (sidePlan p side).entry)
          ((c0 :: rest).drop (i + 1)) with _ | ⟨k, cfill⟩
      · rw [scoreNonempty_armed now p c0 rest i ctrig side h1 h2 h3,
          scoreNonempty_armed 0 p c0 rest i ctrig side h1 h2 h3]
        rfl
      · rw [scoreNonempty_filled now p c0 rest i k ctrig cfill side h1 h2 h3,
          scoreNonempty_filled 0 p c0 rest i k ctrig cfill side h1 h2 h3,
          scoreFilled_scored_at now p (c0 :: rest) _ side i k ctrig cfill]

/-- C6 (amended): every review field other than the `scored_at_et` wall-clock
stamp is a deterministic function of the trade plan and candle sequence
alone: two runs at different times agree after forgetting the stamp. -/
theorem score_deterministic_up_to_scored_at (t1 t2 : Int) (p : TradePlan)
    (candles : List Candle) :
    (score t1 p candles).map Review.core = (score t2 p candles).map Review.core := by
  cases candles with
  | nil => rfl
  | cons c0 rest =>
    have e1 : score t1 p (c0 :: rest) = some (scoreNonempty t1 p c0 rest) := rfl
    have e2 : score t2 p (c0 :: rest) = some (scoreNonempty t2 p c0 rest) := rfl
    rw [e1, e2, Option.map_some', Option.map_some',
      scoreNonempty_scored_at t1 p c0 rest, scoreNonempty_scored_at t2 p c0 rest]
    rfl

/-- C6 (counterexample): re-running `score` on the very same plan and candle
series at a different wall-clock instant produces a different review record —
the record carries the run time in `scored_at_et`, so it is not a function of
`(TradePlan, Candles)` alone and is not byte-identical across runs. -/
theorem score_record_depends_on_run_time : score 0 pC6 [bC6] ≠ score 1 pC6 [bC6] := by
  intro h
  have e1 : score 0 pC6 [bC6] = some (scoreNonempty 0 pC6 bC6 []) := rfl
  have e2 : score 1 pC6 [bC6] = some (scoreNonempty 1 pC6 bC6 []) := rfl
  rw [e1, e2] at h
  have h3 := congrArg Review.scored_at (Option.some.inj h)
  rw [scoreNonempty_scored_at 0 pC6 bC6 [], scoreNonempty_scored_at 1 pC6 bC6 []] at h3
  simp at h3

/-- C7 (counterexample): on a one-bar series whose single close satisfies both
trigger conditions at once (levels 98 ≤ close ≤ 102), the detector reports
`conflict` — produced by that single bar's close alone, since no other bar
exists. -/
theorem conflict_from_single_bar_close :
    detectTrigger pC7 [bC7] = Triggered.conflict ∧
      longPred pC7 bC7 = true ∧ shortPred pC7 bC7 = true := by decide

/-- C7 (amended): a `conflict` report always comes from one bar whose single
close satisfies both conditions; consequently, whenever the short trigger
level lies strictly below the long trigger level — as in the spec's scenario
(`close>=102` vs `close<=98`) — the detector can never report `conflict`. -/
theorem no_conflict_when_levels_separated (p : TradePlan) (candles : List Candle)
    (h : p.short.level < p.long.level) :
    detectTrigger p candles ≠ Triggered.conflict := by
  intro hc
  rw [detectTrigger_conflict_iff] at hc
  obtain ⟨i, c, _, hl, hs⟩ := hc
  simp only [longPred, ge_iff_le, decide_eq_true_eq] at hl
  simp only [shortPred, decide_eq_true_eq] at hs
  exact absurd h (not_lt.mpr (le_trans hl hs))

theorem ambiguous_same_bar_exits_at_stop_witness :
    (simulate Side.long 100 95 5 [110] 0 0 [bC1]).2 =
      some (ExitReason.ambiguous_stop_and_tp_same_candle, 95, 0) :=
  ambiguous_same_bar_exits_at_stop Side.long 100 95 5 0 0 [110] [] bC1 []
    (by intro b hb; exact absurd hb (List.not_mem_nil b)) (by decide) (by decide)

theorem expired_at_window_close_witness :
    (scoreNonempty 0 pC3 bC3a [bC3b]).exit = ExitReason.expired_close ∧
      (scoreNonempty 0 pC3 bC3a [bC3b]).exit_price = some 101 :=
  expired_at_window_close 0 pC3 bC3a [bC3b] 0 0 bC3a bC3b Side.long
    (scoreNonempty 0 pC3 bC3a [bC3b])
    (by decide) (by decide) (by decide) (by norm_num [riskLong, pC3])
    (by norm_num [riskShort, pC3]) (by decide) rfl

theorem fill_strictly_after_trigger_witness :
    fillPred Side.long (sidePlan pC4 Side.long).entry bC4a = true ∧
      (scoreNonempty 0 pC4 bC4a [bC4b]).filled = false ∧
      (scoreNonempty 0 pC4 bC4a [bC4b]).exit = ExitReason.armed_not_filled := by
  refine ⟨by decide, ?_, ?_⟩
  · exact ((fill_strictly_after_trigger 0 pC4 bC4a [bC4b] 0 bC4a Side.long
      (scoreNonempty 0 pC4 bC4a [bC4b]) (by decide) (by decide) rfl).2.2 (by decide)).1
  · exact ((fill_strictly_after_trigger 0 pC4 bC4a [bC4b] 0 bC4a Side.long
      (scoreNonempty 0 pC4 bC4a [bC4b]) (by decide) (by decide) rfl).2.2 (by decide)).2

theorem zero_risk_structured_error_witness :
    (scoreNonempty 0 pC5 bC5a [bC5b]).exit = ExitReason.bad_risk_zero ∧
      (scoreNonempty 0 pC5 bC5a [bC5b]).R = 0 ∧
      (scoreNonempty 0 pC5 bC5a [bC5b]).exit_price = Option.none :=
  zero_risk_structured_error 0 pC5 bC5a [bC5b] 0 0 bC5a bC5b Side.long
    (scoreNonempty 0 pC5 bC5a [bC5b])
    (by decide) (by decide) (by decide) (Or.inl (by norm_num [riskLong, pC5])) rfl

theorem zero_risk_on_other_side_blocks_scoring_witness :
    (scoreNonempty 0 pC9 bC9a [bC9b]).exit = ExitReason.bad_risk_zero ∧
      (scoreNonempty 0 pC9 bC9a [bC9b]).R = 0 :=
  zero_risk_on_other_side_blocks_scoring 0 pC9 bC9a [bC9b] 0 0 bC9a bC9b Side.long
    (scoreNonempty 0 pC9 bC9a [bC9b])
    (by decide) (by decide) (by decide)
    (by norm_num [sideRisk, otherSide, riskShort, pC9])
    (by norm_num [sideRisk, riskLong, pC9]) rfl

theorem excursion_metrics_nonnegative_witness :
    0 ≤ (scoreNonempty 0 pC10 bC10 []).max_favorable_R ∧
      0 ≤ (scoreNonempty 0 pC10 bC10 []).max_adverse_R :=
  excursion_metrics_nonnegative 0 pC10 [bC10] (scoreNonempty 0 pC10 bC10 []) rfl

theorem no_conflict_when_levels_separated_witness :
    detectTrigger pC7W [bC7] ≠ Triggered.conflict :=
  no_conflict_when_levels_separated pC7W [bC7] (by decide)

end ScoreDay
